import Mathlib

/-!
# Okteto pipeline deploy and registry error classification

A shallow embedding of `cmd/pipeline/deploy.go` and `pkg/registry/errors.go`.

Conventions of the embedding:

* a Go `string` is a Lean `String`; every pattern the code searches for is ASCII,
  so containment over characters agrees with Go's containment over bytes;
* a Go `error` value is `Option _`: `none` is `nil`;
* `fmt.Sprintf` / `fmt.Errorf` with `%s` verbs is string concatenation;
* a Go `map[string]string` that is ranged over is the list of its entries in the
  order the `range` statement enumerates them (Go leaves that order unspecified,
  so statements quantify over every list);
* goroutines and `select` are a step function driven by an explicit schedule.
-/

namespace Okteto

/-! ## Go standard library: package `strings` -/

/-- Whether `sub` occurs in `s` starting at some offset (both as character lists). -/
def containsChars : List Char → List Char → Bool
  | [], sub => sub.isPrefixOf []
  | c :: cs, sub => sub.isPrefixOf (c :: cs) || containsChars cs sub

/-- Go `strings.Contains(s, substr)`: reports whether `substr` is within `s`. -/
def Contains (s substr : String) : Bool :=
  containsChars s.data substr.data

/-- Go `strings.Index` on character lists: offset of the first instance of `sep` in `s`. -/
def indexChars : List Char → List Char → Option Nat
  | [], sep => if sep.isPrefixOf [] then some 0 else none
  | c :: cs, sep =>
    if sep.isPrefixOf (c :: cs) then some 0
    else (indexChars cs sep).map (· + 1)

/-- The splitting loop of Go `strings.genSplit` (with `sepSave = 0`): at most `k` cuts. -/
def genSplitLoop : Nat → List Char → List Char → List (List Char)
  | 0, s, _ => [s]
  | k + 1, s, sep =>
    match indexChars s sep with
    | none => [s]
    | some m => s.take m :: genSplitLoop k (s.drop (m + sep.length)) sep

/-- Go `strings.explode(s, n)` for `n > 0` pieces at most: single characters, then the rest. -/
def explodeChars : Nat → List Char → List (List Char)
  | _, [] => []
  | 0, _ => []
  | 1, s => [s]
  | _ + 2, [c] => [[c]]
  | k + 2, c :: d :: cs => [c] :: explodeChars (k + 1) (d :: cs)

/-- Go `strings.SplitN(s, sep, n)`: `n = 0` gives no pieces, `n < 0` all pieces,
`n > 0` at most `n` pieces, the last one being the unsplit remainder. -/
def SplitN (s sep : String) (n : Int) : List String :=
  if n = 0 then []
  else if sep.data = [] then
    (explodeChars (if n < 0 then s.data.length else n.toNat) s.data).map String.mk
  else
    (genSplitLoop (if n < 0 then s.data.length else n.toNat - 1) s.data sep.data).map String.mk

/-! ## `pkg/registry/errors.go` -/

/-- The value `oktetoErrors.UserError{E: ..., Hint: ...}`; `E` holds the text of the wrapped error. -/
structure UserError where
  E : String
  Hint : String
  deriving DecidableEq, Repr

/-- Source: `IsLoggedIntoRegistryButDontHavePermissions` (called on a non-nil error with text `err`). -/
def IsLoggedIntoRegistryButDontHavePermissions (err : String) : Bool :=
  Contains err "insufficient_scope: authorization failed"

/-- Source: `IsNotLoggedIntoRegistry`. -/
def IsNotLoggedIntoRegistry (err : String) : Bool :=
  Contains err "failed to authorize: failed to fetch anonymous token" ||
    Contains err "UNAUTHORIZED: authentication required"

/-- Source: `IsBuildkitServiceUnavailable`. -/
def IsBuildkitServiceUnavailable (err : String) : Bool :=
  Contains err "connect: connection refused" || Contains err "500 Internal Server Error" ||
    Contains err "context canceled"

/-- Source: `GetErrorMessage`. `GetRegistryAndRepo` is declared outside the two source
files and is taken as a parameter; it returns `(imageRegistry, imageTag)`. -/
def GetErrorMessage (GetRegistryAndRepo : String → String × String)
    (err : Option String) (tag : String) : Option UserError :=
  match err with
  | none => none
  | some text =>
    let imageRegistry := (GetRegistryAndRepo tag).1
    let imageTag := (GetRegistryAndRepo tag).2
    if IsLoggedIntoRegistryButDontHavePermissions text then
      some { E := "error building image '" ++ tag ++ "': You are not authorized to push image '"
                    ++ imageTag ++ "'"
             Hint := "Please log in into the registry '" ++ imageRegistry
                    ++ "' with a user with push permissions to '" ++ imageTag
                    ++ "' or use another image." }
    else if IsNotLoggedIntoRegistry text then
      some { E := "error building image '" ++ tag ++ "': You are not authorized to push image '"
                    ++ imageTag ++ "'"
             Hint := "Log in into the registry '" ++ imageRegistry
                    ++ "' and verify that you have permissions to push the image '" ++ imageTag
                    ++ "'." }
    else if IsBuildkitServiceUnavailable text then
      some { E := "buildkit service is not available at the moment"
             Hint := "Please try again later." }
    else
      some { E := "error building image '" ++ tag ++ "': " ++ text
             Hint := "" }

/-- Source: `IsTransientError`; the `switch` is evaluated case by case, top to bottom. -/
def IsTransientError (err : Option String) : Bool :=
  match err with
  | none => false
  | some e =>
    if (Contains e "failed commit on ref" && Contains e "500 Internal Server Error")
        || Contains e "transport is closing" then true
    else if Contains e "transport: error while dialing: dial tcp: i/o timeout" then true
    else if Contains e "error reading from server: EOF" then true
    else if Contains e "error while dialing: dial tcp: lookup buildkit"
        && Contains e "no such host" then true
    else if Contains e "failed commit on ref" && Contains e "400 Bad Request" then true
    else if Contains e "failed to do request"
        && Contains e "http: server closed idle connection" then true
    else if Contains e "failed to do request"
        && Contains e "tls: use of closed connection" then true
    else if Contains e "Canceled" && Contains e "the client connection is closing" then true
    else if Contains e "Canceled" && Contains e "context canceled" then true
    else false

/-- The transient rule table as the specification words it: a text is transient when it
contains one of the listed substrings, or both halves of one of the listed pairs. -/
def transientBySpec (e : String) : Prop :=
  (Contains e "failed commit on ref" = true ∧ Contains e "500 Internal Server Error" = true)
  ∨ Contains e "transport is closing" = true
  ∨ Contains e "transport: error while dialing: dial tcp: i/o timeout" = true
  ∨ Contains e "error reading from server: EOF" = true
  ∨ (Contains e "error while dialing: dial tcp: lookup buildkit" = true
      ∧ Contains e "no such host" = true)
  ∨ (Contains e "failed commit on ref" = true ∧ Contains e "400 Bad Request" = true)
  ∨ (Contains e "failed to do request" = true
      ∧ Contains e "http: server closed idle connection" = true)
  ∨ (Contains e "failed to do request" = true ∧ Contains e "tls: use of closed connection" = true)
  ∨ (Contains e "Canceled" = true ∧ Contains e "the client connection is closing" = true)
  ∨ (Contains e "Canceled" = true ∧ Contains e "context canceled" = true)

/-! ## `cmd/pipeline/deploy.go`: errors, options and the readiness poller -/

/-- A Go `error` value met in `deploy.go`: the sentinel `oktetoErrors.ErrIntSig`, compared by
identity, or any other error, kept with its text. -/
inductive GoError where
  | ErrIntSig
  | errorf (text : String)
  deriving DecidableEq, Repr

/-- The two declarations of package `okteto` read by `CheckAllResourcesRunning`; they are
declared outside the two source files and are taken as parameters. `TransitionStatus` is the
lookup `okteto.TransitionStatus[status]` of a `map[string]bool` (false on a missing key). -/
structure StatusTable where
  ErrorStatus : String
  TransitionStatus : String → Bool

/-- A `map[string]string` of resource id to status, as enumerated by `range`. -/
abbrev ResourceStatus := List (String × String)

/-- The `for ... range resourceStatus` loop of `CheckAllResourcesRunning`, carrying the local
variable `allRunning`. -/
def checkResourcesLoop (ok : StatusTable) (name : String) :
    ResourceStatus → Bool → Bool × Option GoError
  | [], allRunning => (allRunning, none)
  | (_, status) :: rest, allRunning =>
    if status = ok.ErrorStatus then
      (false, some (.errorf ("repository '" ++ name ++ "' deployed with errors")))
    else
      checkResourcesLoop ok name rest (if ok.TransitionStatus status then false else allRunning)

/-- Source: `CheckAllResourcesRunning`. -/
def CheckAllResourcesRunning (ok : StatusTable) (name : String)
    (resourceStatus : ResourceStatus) : Bool × Option GoError :=
  checkResourcesLoop ok name resourceStatus true

/-- Go `time.NewTicker(d)`: panics when `d` is not positive (`d` in nanoseconds). -/
def NewTicker (d : Int) : Except String Unit :=
  if d ≤ 0 then .error "non-positive interval for NewTicker" else .ok ()

/-- What one iteration of the poller's `select` receives: a tick of the timeout ticker `to`,
or a tick of the one-second `ticker` together with what `GetResourcesStatus` then returns. -/
inductive PollEvent where
  | timeout
  | tick (status : Except GoError ResourceStatus)

/-- How a call of `waitForResourcesToBeRunning` stands after a finite sequence of events. -/
inductive WaitOutcome where
  | panicked (msg : String)
  | returned (err : Option GoError)
  | polling
  deriving DecidableEq, Repr

/-- The `for { select { ... } }` loop of `waitForResourcesToBeRunning`. `fmtDuration` is
`time.Duration.String`. -/
def pollLoop (ok : StatusTable) (fmtDuration : Int → String) (name : String) (timeout : Int) :
    List PollEvent → WaitOutcome
  | [] => .polling
  | .timeout :: _ =>
    .returned (some (.errorf ("'" ++ name ++ "' deploy didn't finish after "
      ++ fmtDuration timeout)))
  | .tick (.error err) :: _ => .returned (some err)
  | .tick (.ok resourceStatus) :: rest =>
    match CheckAllResourcesRunning ok name resourceStatus with
    | (_, some err) => .returned (some err)
    | (true, none) => .returned none
    | (false, none) => pollLoop ok fmtDuration name timeout rest

/-- One second, in nanoseconds (`1 * time.Second`). -/
def Second : Int := 1000000000

/-- Source: `waitForResourcesToBeRunning`: both tickers are created, then the loop runs. -/
def waitForResourcesToBeRunning (ok : StatusTable) (fmtDuration : Int → String) (name : String)
    (timeout : Int) (events : List PollEvent) : WaitOutcome :=
  match NewTicker (1 * Second) with
  | .error msg => .panicked msg
  | .ok _ =>
    match NewTicker timeout with
    | .error msg => .panicked msg
    | .ok _ => pollLoop ok fmtDuration name timeout events

/-! ## `deployPipeline`: the submission task and the `select` -/

/-- The value `types.Variable{Name: ..., Value: ...}`. -/
structure Variable where
  Name : String
  Value : String
  deriving DecidableEq, Repr

/-- The value `*types.GitDeployResponse`, of which only the action name is read. -/
structure GitDeployResponse where
  Action : String
  deriving DecidableEq, Repr

/-- Source: `DeployOptions` (`Timeout` in nanoseconds). -/
structure DeployOptions where
  Branch : String
  Repository : String
  Name : String
  Namespace : String
  Wait : Bool
  SkipIfExists : Bool
  Timeout : Int
  File : String
  Variables : List String
  Filename : String

/-- The arguments of one call `pc.okClient.Pipeline().Deploy(ctx, name, repository, branch,
file, varList)`. -/
structure DeployCall where
  name : String
  repository : String
  branch : String
  file : String
  varList : List Variable
  deriving DecidableEq, Repr

/-- The remote service: what `Deploy` returns for a call. -/
abbrev DeployClient := DeployCall → Option GitDeployResponse × Option GoError

/-- The `for _, v := range opts.Variables` loop of the submission goroutine, carrying
`varList`; an entry that does not split in two sends the error on `exit`. -/
def buildVarList : List String → List Variable → Except GoError (List Variable)
  | [], varList => .ok varList
  | v :: rest, varList =>
    let kv := SplitN v "=" 2
    if kv.length ≠ 2 then
      .error (.errorf ("invalid variable value '" ++ v ++ "': must follow KEY=VALUE format"))
    else
      buildVarList rest (varList ++ [{ Name := kv.getD 0 "", Value := kv.getD 1 "" }])

/-- Where the submission goroutine stands. -/
inductive TaskState where
  | notStarted
  | inFlight (call : DeployCall)
  | finished
  deriving DecidableEq, Repr

/-- State of one run of `deployPipeline`: the goroutine, the calls made to the remote service,
the channels `stop` (a pending signal) and `exit` (a pending value), the shared variable `resp`,
and the value `deployPipeline` returned, once it has. -/
structure DeployState where
  task : TaskState
  calls : List DeployCall
  stopBuf : Bool
  exitBuf : Option (Option GoError)
  resp : Option GitDeployResponse
  ret : Option (Option GitDeployResponse × Option GoError)
  deriving DecidableEq, Repr

/-- What can happen next in a run of `deployPipeline`. -/
inductive DeployAction where
  | interrupt
  | taskStart
  | taskFinish
  | selectStop
  | selectExit
  deriving DecidableEq, Repr

/-- The state when `deployPipeline` reaches its `select`. -/
def DeployState.init : DeployState :=
  { task := .notStarted, calls := [], stopBuf := false, exitBuf := none, resp := none,
    ret := none }

/-- One step of `deployPipeline`; `none` when the action cannot happen in that state.
* `interrupt`: `os.Interrupt` is delivered to `stop` (capacity 1, never blocks);
* `taskStart`: the goroutine validates the variables and, if they are valid, issues `Deploy`;
* `taskFinish`: `Deploy` resolves, `resp` is assigned and `err` is sent on `exit`;
* `selectStop`, `selectExit`: the `select` takes `case <-stop`, `case err := <-exit`. -/
def deployStep (client : DeployClient) (opts : DeployOptions) (s : DeployState) :
    DeployAction → Option DeployState
  | .interrupt => some { s with stopBuf := true }
  | .taskStart =>
    match s.task with
    | .notStarted =>
      match buildVarList opts.Variables [] with
      | .error e => some { s with task := .finished, exitBuf := some (some e) }
      | .ok varList =>
        let call : DeployCall :=
          { name := opts.Name, repository := opts.Repository, branch := opts.Branch,
            file := opts.File, varList := varList }
        some { s with task := .inFlight call, calls := s.calls ++ [call] }
    | _ => none
  | .taskFinish =>
    match s.task with
    | .inFlight call =>
      some { s with task := .finished, resp := (client call).1, exitBuf := some (client call).2 }
    | _ => none
  | .selectStop =>
    if s.ret = none ∧ s.stopBuf = true then
      some { s with stopBuf := false, ret := some (none, some .ErrIntSig) }
    else none
  | .selectExit =>
    if s.ret = none then
      match s.exitBuf with
      | some (some err) => some { s with exitBuf := none, ret := some (none, some err) }
      | some none => some { s with exitBuf := none, ret := some (s.resp, none) }
      | none => none
    else none

/-- Run a schedule of actions; `none` when some action of the schedule cannot happen. -/
def deployRun (client : DeployClient) (opts : DeployOptions) :
    DeployState → List DeployAction → Option DeployState
  | s, [] => some s
  | s, a :: rest =>
    match deployStep client opts s a with
    | none => none
    | some s' => deployRun client opts s' rest

/-! ## `waitUntilRunning`: streamer, poller, helper goroutine and the `select` -/

/-- The value the poller goroutine of `waitUntilRunning` sends on `exit`: the error of
`waitToBeDeployed` when there is one, else the result of `waitForResourcesToBeRunning`. -/
def pollerOutcome (deployed : Option GoError) (resources : WaitOutcome) : WaitOutcome :=
  match deployed with
  | some err => .returned (some err)
  | none => resources

/-- Where the third goroutine (`wg.Wait(); close(stop); close(exit)`) stands. -/
inductive HelperState where
  | waiting
  | closedStop
  | closedExit
  deriving DecidableEq, Repr

/-- State of one run of `waitUntilRunning`. `interrupts` counts the `os.Interrupt` signals
delivered so far; `ret` is the value `waitUntilRunning` returned, once it has. -/
structure WaitState where
  streamerDone : Bool
  pollerDone : Bool
  helper : HelperState
  stopBuf : Bool
  stopClosed : Bool
  exitBuf : Option (Option GoError)
  exitClosed : Bool
  cancelled : Bool
  interrupts : Nat
  panicked : Bool
  ret : Option (Option GoError)
  deriving DecidableEq, Repr

/-- What can happen next in a run of `waitUntilRunning`. -/
inductive WaitAction where
  | interrupt
  | streamerFinish
  | pollerFinish
  | helperCloseStop
  | helperCloseExit
  | selectStop
  | selectExit
  deriving DecidableEq, Repr

/-- The state when the three goroutines of `waitUntilRunning` have been started. -/
def WaitState.init : WaitState :=
  { streamerDone := false, pollerDone := false, helper := .waiting, stopBuf := false,
    stopClosed := false, exitBuf := none, exitClosed := false, cancelled := false,
    interrupts := 0, panicked := false, ret := none }

/-- One step of `waitUntilRunning`; `none` when the action cannot happen in that state.
`poller` is what the poller goroutine computes (`pollerOutcome`).
* `interrupt`: `os.Interrupt` is delivered to `stop` (a send on a closed channel panics);
* `streamerFinish`: `streamPipelineLogs` returns (its error is only logged), `wg.Done()`;
* `pollerFinish`: the poller sends its result on `exit` (capacity 1), `wg.Done()`;
* `helperCloseStop`, `helperCloseExit`: after `wg.Wait()`, `close(stop)` then `close(exit)`;
* `selectStop`: `case <-stop` is taken; it can proceed when `stop` holds a signal or is closed;
* `selectExit`: `case err := <-exit` is taken; it can proceed when `exit` holds a value or is
  closed (a closed, empty channel yields `nil`). -/
def waitStep (poller : WaitOutcome) (s : WaitState) : WaitAction → Option WaitState
  | .interrupt =>
    if s.panicked then none
    else if s.stopClosed then some { s with interrupts := s.interrupts + 1, panicked := true }
    else some { s with interrupts := s.interrupts + 1, stopBuf := true }
  | .streamerFinish =>
    if s.panicked ∨ s.streamerDone then none
    else some { s with streamerDone := true }
  | .pollerFinish =>
    if s.panicked ∨ s.pollerDone then none
    else
      match poller with
      | .returned err => some { s with pollerDone := true, exitBuf := some err }
      | .panicked _ => some { s with panicked := true }
      | .polling => none
  | .helperCloseStop =>
    if ¬ s.panicked ∧ s.streamerDone ∧ s.pollerDone ∧ s.helper = .waiting then
      some { s with helper := .closedStop, stopClosed := true }
    else none
  | .helperCloseExit =>
    if ¬ s.panicked ∧ s.helper = .closedStop then
      some { s with helper := .closedExit, exitClosed := true }
    else none
  | .selectStop =>
    if ¬ s.panicked ∧ s.ret = none ∧ (s.stopBuf ∨ s.stopClosed) then
      some { s with stopBuf := false, cancelled := true, ret := some (some .ErrIntSig) }
    else none
  | .selectExit =>
    if ¬ s.panicked ∧ s.ret = none then
      match s.exitBuf with
      | some err => some { s with exitBuf := none, cancelled := true, ret := some err }
      | none =>
        if s.exitClosed then some { s with cancelled := true, ret := some none } else none
    else none

/-- Run a schedule of actions; `none` when some action of the schedule cannot happen. -/
def waitRun (poller : WaitOutcome) : WaitState → List WaitAction → Option WaitState
  | s, [] => some s
  | s, a :: rest =>
    match waitStep poller s a with
    | none => none
    | some s' => waitRun poller s' rest

/-- Source: `waitUntilRunning`, as the runs of its goroutines: `deployed` is what
`waitToBeDeployed` returns and `events` is what the poller's `select` receives. -/
def waitUntilRunning (ok : StatusTable) (fmtDuration : Int → String) (name : String)
    (timeout : Int) (deployed : Option GoError) (events : List PollEvent)
    (schedule : List WaitAction) : Option WaitState :=
  waitRun (pollerOutcome deployed (waitForResourcesToBeRunning ok fmtDuration name timeout events))
    WaitState.init schedule

/-- Modelled from the spec: `okteto.ErrorStatus` and `okteto.TransitionStatus` are declared
outside the two source files. The examples of the specification use "error" as the error
status and "pending" as a transitional status, and its glossary counts the error status among
the terminal statuses, which are those outside the transitional set. -/
def specStatusTable : StatusTable :=
  { ErrorStatus := "error", TransitionStatus := fun status => status == "pending" }

/-- A stand-in for `time.Duration.String` in evaluations: the count of nanoseconds. -/
def nanosString (d : Int) : String := toString d ++ "ns"

/-- A sample set of options for evaluations, with the given `--var` entries. -/
def sampleOptions (vars : List String) : DeployOptions :=
  { Branch := "main", Repository := "https://github.com/okteto/movies", Name := "movies",
    Namespace := "dev", Wait := true, SkipIfExists := false, Timeout := 300 * Second,
    File := "okteto-pipeline.yaml", Variables := vars, Filename := "" }

/-- A sample remote service for evaluations: every `Deploy` call succeeds. -/
def sampleClient : DeployClient :=
  fun call => (some { Action := "deploy-" ++ call.name }, none)

/-- The state of the sample run in which the interrupt is taken while `Deploy` is in flight. -/
def sampleInterruptedState : DeployState :=
  { task := .inFlight { name := "movies", repository := "https://github.com/okteto/movies",
                        branch := "main", file := "okteto-pipeline.yaml",
                        varList := [{ Name := "A", Value := "1" }] }
    calls := [{ name := "movies", repository := "https://github.com/okteto/movies",
                branch := "main", file := "okteto-pipeline.yaml",
                varList := [{ Name := "A", Value := "1" }] }]
    stopBuf := false, exitBuf := none, resp := none
    ret := some (none, some .ErrIntSig) }

/-- What holds of every state a run of `waitUntilRunning` reaches: without an interrupt `stop`
holds no signal; before the poller has sent, `exit` is empty and nothing is closed; once it has
sent, its value is in `exit` or has been returned; and a value returned without an interrupt
is the poller's, or is `ErrIntSig` read from the closed `stop`. -/
def WaitInv (poller : WaitOutcome) (s : WaitState) : Prop :=
  (s.interrupts = 0 → s.stopBuf = false)
  ∧ (s.pollerDone = false →
      s.exitBuf = none ∧ s.stopClosed = false ∧ s.exitClosed = false ∧ s.helper = .waiting)
  ∧ (s.pollerDone = true → ∃ r, poller = .returned r ∧ (s.exitBuf = some r ∨ s.ret = some r))
  ∧ (∀ r, s.ret = some r → s.interrupts = 0 →
      poller = .returned r ∨ (r = some .ErrIntSig ∧ s.stopClosed = true))

/-! ## Readiness poll: lemmas -/

theorem checkResourcesLoop_error (ok : StatusTable) (name : String) (rs : ResourceStatus)
    (h : ∃ r ∈ rs, r.2 = ok.ErrorStatus) (acc : Bool) :
    checkResourcesLoop ok name rs acc
      = (false, some (.errorf ("repository '" ++ name ++ "' deployed with errors"))) := by
  induction rs generalizing acc with
  | nil => simp at h
  | cons r rest ih =>
    obtain ⟨id, status⟩ := r
    by_cases hs : status = ok.ErrorStatus
    · simp [checkResourcesLoop, hs]
    · have hrest : ∃ r ∈ rest, r.2 = ok.ErrorStatus := by
        obtain ⟨r, hr, hr2⟩ := h
        rcases List.mem_cons.mp hr with rfl | hr
        · exact absurd hr2 hs
        · exact ⟨r, hr, hr2⟩
      simp only [checkResourcesLoop, hs, if_false]
      exact ih hrest _

theorem checkResourcesLoop_stable (ok : StatusTable) (name : String) (rs : ResourceStatus)
    (hne : ∀ r ∈ rs, r.2 ≠ ok.ErrorStatus) (htr : ∀ r ∈ rs, ok.TransitionStatus r.2 = false)
    (acc : Bool) : checkResourcesLoop ok name rs acc = (acc, none) := by
  induction rs generalizing acc with
  | nil => rfl
  | cons r rest ih =>
    obtain ⟨id, status⟩ := r
    have h1 : status ≠ ok.ErrorStatus := hne (id, status) (List.mem_cons_self _ _)
    have h2 : ok.TransitionStatus status = false := htr (id, status) (List.mem_cons_self _ _)
    simp only [checkResourcesLoop, h1, h2, if_false]
    exact ih (fun r hr => hne r (List.mem_cons_of_mem _ hr))
      (fun r hr => htr r (List.mem_cons_of_mem _ hr)) acc

theorem checkResourcesLoop_false (ok : StatusTable) (name : String) (rs : ResourceStatus)
    (hne : ∀ r ∈ rs, r.2 ≠ ok.ErrorStatus) :
    checkResourcesLoop ok name rs false = (false, none) := by
  induction rs with
  | nil => rfl
  | cons r rest ih =>
    obtain ⟨id, status⟩ := r
    have h1 : status ≠ ok.ErrorStatus := hne (id, status) (List.mem_cons_self _ _)
    simp only [checkResourcesLoop, h1, if_false, ite_self]
    exact ih (fun r hr => hne r (List.mem_cons_of_mem _ hr))

theorem checkResourcesLoop_transitional (ok : StatusTable) (name : String) (rs : ResourceStatus)
    (hne : ∀ r ∈ rs, r.2 ≠ ok.ErrorStatus) (htr : ∃ r ∈ rs, ok.TransitionStatus r.2 = true)
    (acc : Bool) : checkResourcesLoop ok name rs acc = (false, none) := by
  induction rs generalizing acc with
  | nil => simp at htr
  | cons r rest ih =>
    obtain ⟨id, status⟩ := r
    have h1 : status ≠ ok.ErrorStatus := hne (id, status) (List.mem_cons_self _ _)
    have hne' : ∀ r ∈ rest, r.2 ≠ ok.ErrorStatus := fun r hr => hne r (List.mem_cons_of_mem _ hr)
    by_cases h2 : ok.TransitionStatus status = true
    · simp only [checkResourcesLoop, h1, h2, if_false, if_true]
      exact checkResourcesLoop_false ok name rest hne'
    · have hrest : ∃ r ∈ rest, ok.TransitionStatus r.2 = true := by
        obtain ⟨r, hr, hr2⟩ := htr
        rcases List.mem_cons.mp hr with rfl | hr
        · exact absurd hr2 h2
        · exact ⟨r, hr, hr2⟩
      simp only [checkResourcesLoop, h1, h2, if_false]
      exact ih hne' hrest acc

theorem CheckAllResourcesRunning_single_error (ok : StatusTable) (name id : String) :
    CheckAllResourcesRunning ok name [(id, ok.ErrorStatus)]
      = (false, some (.errorf ("repository '" ++ name ++ "' deployed with errors"))) :=
  checkResourcesLoop_error ok name _ ⟨(id, ok.ErrorStatus), List.mem_cons_self _ _, rfl⟩ true

theorem waitForResourcesToBeRunning_pos (ok : StatusTable) (fmtDuration : Int → String)
    (name : String) (timeout : Int) (h : 0 < timeout) (events : List PollEvent) :
    waitForResourcesToBeRunning ok fmtDuration name timeout events
      = pollLoop ok fmtDuration name timeout events := by
  have h1 : ¬ (Second ≤ 0) := by decide
  have h2 : ¬ (timeout ≤ 0) := not_le.mpr h
  simp [waitForResourcesToBeRunning, NewTicker, h1, h2]

/-! ## Readiness poll: claims -/

/-- C1: when some resource of the snapshot has the error status, `CheckAllResourcesRunning`
returns `false` with the non-nil error "repository '<name>' deployed with errors", whatever the
other statuses are and in whatever order the entries of the map are enumerated. -/
theorem C1_error_status_reports_failure (ok : StatusTable) (name : String)
    (snapshot enumerated : ResourceStatus) (hperm : List.Perm enumerated snapshot)
    (herr : ∃ r ∈ snapshot, r.2 = ok.ErrorStatus) :
    CheckAllResourcesRunning ok name enumerated
        = (false, some (.errorf ("repository '" ++ name ++ "' deployed with errors")))
      ∧ CheckAllResourcesRunning ok name enumerated ≠ (true, none)
      ∧ CheckAllResourcesRunning ok name enumerated ≠ (false, none) := by
  have h : CheckAllResourcesRunning ok name enumerated
      = (false, some (.errorf ("repository '" ++ name ++ "' deployed with errors"))) := by
    obtain ⟨r, hr, hr2⟩ := herr
    exact checkResourcesLoop_error ok name enumerated ⟨r, hperm.symm.subset hr, hr2⟩ true
  refine ⟨h, ?_, ?_⟩ <;> rw [h] <;> simp

theorem C1_error_status_reports_failure_witness :
    List.Perm [("svc-b", "error"), ("svc-a", "running")] [("svc-a", "running"), ("svc-b", "error")]
      ∧ (∃ r ∈ [("svc-a", "running"), ("svc-b", "error")], r.2 = specStatusTable.ErrorStatus)
      ∧ CheckAllResourcesRunning specStatusTable "app" [("svc-b", "error"), ("svc-a", "running")]
          = (false, some (.errorf ("repository '" ++ "app" ++ "' deployed with errors"))) :=
  ⟨List.Perm.swap _ _ _, ⟨("svc-b", "error"), by decide, rfl⟩,
    (C1_error_status_reports_failure specStatusTable "app"
      [("svc-a", "running"), ("svc-b", "error")] [("svc-b", "error"), ("svc-a", "running")]
      (List.Perm.swap _ _ _) ⟨("svc-b", "error"), by decide, rfl⟩).1⟩

/-- C2 (as stated) fails: in the snapshot with the single entry "svc-b" in status "error" no
status is in the transitional set, yet `CheckAllResourcesRunning` returns `false` with an
error and the poller returns that error instead of `nil`. -/
theorem C2_counterexample :
    (∀ r ∈ [("svc-b", "error")], specStatusTable.TransitionStatus r.2 = false)
      ∧ CheckAllResourcesRunning specStatusTable "app" [("svc-b", "error")]
          = (false, some (.errorf "repository 'app' deployed with errors"))
      ∧ CheckAllResourcesRunning specStatusTable "app" [("svc-b", "error")] ≠ (true, none)
      ∧ waitForResourcesToBeRunning specStatusTable nanosString "app" (300 * Second)
          [.tick (.ok [("svc-b", "error")])]
          = .returned (some (.errorf "repository 'app' deployed with errors")) := by
  decide

/-- C2 (amended): when no resource of the snapshot has a transitional status and none has the
error status, `CheckAllResourcesRunning` returns `(true, nil)` and, for a positive timeout,
`waitForResourcesToBeRunning` returns `nil` on that poll; the empty snapshot is such a one. -/
theorem C2_stable_snapshot_succeeds (ok : StatusTable) (fmtDuration : Int → String)
    (name : String) (timeout : Int) (snapshot : ResourceStatus) (rest : List PollEvent)
    (htr : ∀ r ∈ snapshot, ok.TransitionStatus r.2 = false)
    (hne : ∀ r ∈ snapshot, r.2 ≠ ok.ErrorStatus) (hpos : 0 < timeout) :
    CheckAllResourcesRunning ok name snapshot = (true, none)
      ∧ waitForResourcesToBeRunning ok fmtDuration name timeout (.tick (.ok snapshot) :: rest)
          = .returned none
      ∧ CheckAllResourcesRunning ok name [] = (true, none)
      ∧ waitForResourcesToBeRunning ok fmtDuration name timeout (.tick (.ok []) :: rest)
          = .returned none := by
  have h : CheckAllResourcesRunning ok name snapshot = (true, none) :=
    checkResourcesLoop_stable ok name snapshot hne htr true
  have h0 : CheckAllResourcesRunning ok name [] = (true, none) := rfl
  refine ⟨h, ?_, h0, ?_⟩
  · rw [waitForResourcesToBeRunning_pos ok fmtDuration name timeout hpos]
    simp only [pollLoop, h]
  · rw [waitForResourcesToBeRunning_pos ok fmtDuration name timeout hpos]
    simp only [pollLoop, h0]

theorem C2_stable_snapshot_succeeds_witness :
    (∀ r ∈ [("svc-a", "running"), ("svc-b", "sleeping")],
        specStatusTable.TransitionStatus r.2 = false)
      ∧ (∀ r ∈ [("svc-a", "running"), ("svc-b", "sleeping")], r.2 ≠ specStatusTable.ErrorStatus)
      ∧ (0 : Int) < 300 * Second
      ∧ waitForResourcesToBeRunning specStatusTable nanosString "app" (300 * Second)
          [.tick (.ok [("svc-a", "running"), ("svc-b", "sleeping")]), .timeout]
          = .returned none :=
  ⟨by decide, by decide, by decide,
    (C2_stable_snapshot_succeeds specStatusTable nanosString "app" (300 * Second)
      [("svc-a", "running"), ("svc-b", "sleeping")] [.timeout]
      (by decide) (by decide) (by decide)).2.1⟩

/-- C3: when some resource of the snapshot has a transitional status and none has the error
status, `CheckAllResourcesRunning` returns `(false, nil)` whatever the other statuses are, and
`waitForResourcesToBeRunning` does not return on that poll: it goes on with the next event,
and is still polling when there is none yet. -/
theorem C3_transitional_snapshot_keeps_polling (ok : StatusTable) (fmtDuration : Int → String)
    (name : String) (timeout : Int) (snapshot : ResourceStatus) (rest : List PollEvent)
    (htr : ∃ r ∈ snapshot, ok.TransitionStatus r.2 = true)
    (hne : ∀ r ∈ snapshot, r.2 ≠ ok.ErrorStatus) (hpos : 0 < timeout) :
    CheckAllResourcesRunning ok name snapshot = (false, none)
      ∧ waitForResourcesToBeRunning ok fmtDuration name timeout (.tick (.ok snapshot) :: rest)
          = waitForResourcesToBeRunning ok fmtDuration name timeout rest
      ∧ waitForResourcesToBeRunning ok fmtDuration name timeout [.tick (.ok snapshot)]
          = .polling := by
  have h : CheckAllResourcesRunning ok name snapshot = (false, none) :=
    checkResourcesLoop_transitional ok name snapshot hne htr true
  refine ⟨h, ?_, ?_⟩
  · rw [waitForResourcesToBeRunning_pos ok fmtDuration name timeout hpos,
      waitForResourcesToBeRunning_pos ok fmtDuration name timeout hpos]
    simp only [pollLoop, h]
  · rw [waitForResourcesToBeRunning_pos ok fmtDuration name timeout hpos]
    simp only [pollLoop, h]

theorem C3_transitional_snapshot_keeps_polling_witness :
    (∃ r ∈ [("svc-a", "running"), ("svc-b", "pending"), ("svc-c", "sleeping")],
        specStatusTable.TransitionStatus r.2 = true)
      ∧ (∀ r ∈ [("svc-a", "running"), ("svc-b", "pending"), ("svc-c", "sleeping")],
          r.2 ≠ specStatusTable.ErrorStatus)
      ∧ (0 : Int) < 2 * Second
      ∧ CheckAllResourcesRunning specStatusTable "app"
          [("svc-a", "running"), ("svc-b", "pending"), ("svc-c", "sleeping")] = (false, none) :=
  ⟨by decide, by decide, by decide,
    (C3_transitional_snapshot_keeps_polling specStatusTable nanosString "app" (2 * Second)
      [("svc-a", "running"), ("svc-b", "pending"), ("svc-c", "sleeping")] [.timeout]
      (by decide) (by decide) (by decide)).1⟩

/-- C9 (the code at the failing input): with a timeout of zero `waitForResourcesToBeRunning`
does not poll at all: `time.NewTicker(timeout)` panics before the loop is entered, whatever
the events would have been. -/
theorem C9_zero_timeout_panics (ok : StatusTable) (fmtDuration : Int → String) (name : String)
    (events : List PollEvent) :
    waitForResourcesToBeRunning ok fmtDuration name 0 events
      = .panicked "non-positive interval for NewTicker" := by
  have h1 : ¬ (Second ≤ 0) := by decide
  simp [waitForResourcesToBeRunning, NewTicker, h1]

/-! ## Registry errors: lemmas and claims -/

theorem containsChars_spec (s sub : List Char) :
    containsChars s sub = true ↔ sub <:+: s := by
  induction s with
  | nil =>
    cases sub <;> simp [containsChars, List.isPrefixOf]
  | cons c cs ih =>
    rw [containsChars, Bool.or_eq_true, ih, List.isPrefixOf_iff_prefix, List.infix_cons_iff]

theorem Contains_spec (s substr : String) :
    Contains s substr = true ↔ substr.data <:+: s.data :=
  containsChars_spec s.data substr.data

theorem Contains_append_mid (a b c : String) : Contains (a ++ b ++ c) b = true := by
  rw [Contains_spec]
  exact ⟨a.data, c.data, by simp [String.data_append]⟩

theorem ite_true_iff_or (c : Prop) [Decidable c] (b : Bool) :
    (if c then true else b) = true ↔ c ∨ b = true := by
  by_cases hc : c <;> simp [hc]

/-- C5: for every error whose text contains "insufficient_scope: authorization failed" and
every tag, `GetErrorMessage` returns the user error with message
"error building image '<tag>': You are not authorized to push image '<repo>'" (which contains
the tag) and the non-empty hint about push permissions, whatever else the text contains. -/
theorem C5_auth_denied_message (GetRegistryAndRepo : String → String × String)
    (text tag : String)
    (h : Contains text "insufficient_scope: authorization failed" = true) :
    GetErrorMessage GetRegistryAndRepo (some text) tag
        = some { E := "error building image '" ++ tag
                    ++ "': You are not authorized to push image '"
                    ++ (GetRegistryAndRepo tag).2 ++ "'"
                 Hint := "Please log in into the registry '" ++ (GetRegistryAndRepo tag).1
                    ++ "' with a user with push permissions to '" ++ (GetRegistryAndRepo tag).2
                    ++ "' or use another image." }
      ∧ (∀ u, GetErrorMessage GetRegistryAndRepo (some text) tag = some u →
          Contains u.E tag = true ∧ u.Hint ≠ ""
            ∧ Contains u.Hint "with a user with push permissions" = true) := by
  have hE : GetErrorMessage GetRegistryAndRepo (some text) tag
        = some { E := "error building image '" ++ tag
                    ++ "': You are not authorized to push image '"
                    ++ (GetRegistryAndRepo tag).2 ++ "'"
                 Hint := "Please log in into the registry '" ++ (GetRegistryAndRepo tag).1
                    ++ "' with a user with push permissions to '" ++ (GetRegistryAndRepo tag).2
                    ++ "' or use another image." } := by
    simp [GetErrorMessage, IsLoggedIntoRegistryButDontHavePermissions, h]
  refine ⟨hE, ?_⟩
  intro u hu
  rw [hE] at hu
  cases hu
  have hhint : Contains ("Please log in into the registry '" ++ (GetRegistryAndRepo tag).1
      ++ "' with a user with push permissions to '" ++ (GetRegistryAndRepo tag).2
      ++ "' or use another image.") "with a user with push permissions" = true := by
    rw [Contains_spec]
    refine ⟨("Please log in into the registry '" ++ (GetRegistryAndRepo tag).1 ++ "' ").data,
      (" to '" ++ (GetRegistryAndRepo tag).2 ++ "' or use another image.").data, ?_⟩
    simp [String.data_append]
  refine ⟨?_, ?_, hhint⟩
  · rw [Contains_spec]
    refine ⟨"error building image '".data,
      ("': You are not authorized to push image '" ++ (GetRegistryAndRepo tag).2 ++ "'").data, ?_⟩
    simp [String.data_append]
  · intro h0
    have hlen := congrArg String.length h0
    simp [String.length_append] at hlen
    exact absurd hlen.2 (by decide)

theorem C5_auth_denied_message_witness :
    Contains "denied: insufficient_scope: authorization failed; UNAUTHORIZED: authentication required; context canceled"
        "insufficient_scope: authorization failed" = true
      ∧ GetErrorMessage (fun tag => ("docker.io", tag))
          (some "denied: insufficient_scope: authorization failed; UNAUTHORIZED: authentication required; context canceled")
          "myimg:latest"
        = some { E := "error building image 'myimg:latest': You are not authorized to push image 'myimg:latest'"
                 Hint := "Please log in into the registry 'docker.io' with a user with push permissions to 'myimg:latest' or use another image." } :=
  ⟨by decide,
    (C5_auth_denied_message (fun tag => ("docker.io", tag))
      "denied: insufficient_scope: authorization failed; UNAUTHORIZED: authentication required; context canceled"
      "myimg:latest" (by decide)).1⟩

/-- C6: for every error whose text contains "connect: connection refused",
"500 Internal Server Error" or "context canceled" and none of the auth-denied and
unauthenticated substrings, `GetErrorMessage` returns, for every tag, the one fixed user error
"buildkit service is not available at the moment" with hint "Please try again later.". -/
theorem C6_service_unavailable_fixed_message (GetRegistryAndRepo : String → String × String)
    (text tag : String)
    (h : Contains text "connect: connection refused" = true
      ∨ Contains text "500 Internal Server Error" = true
      ∨ Contains text "context canceled" = true)
    (hdenied : Contains text "insufficient_scope: authorization failed" = false)
    (hanon : Contains text "failed to authorize: failed to fetch anonymous token" = false)
    (hunauth : Contains text "UNAUTHORIZED: authentication required" = false) :
    GetErrorMessage GetRegistryAndRepo (some text) tag
      = some { E := "buildkit service is not available at the moment"
               Hint := "Please try again later." } := by
  have hb : IsBuildkitServiceUnavailable text = true := by
    simp only [IsBuildkitServiceUnavailable, Bool.or_eq_true]
    tauto
  simp [GetErrorMessage, IsLoggedIntoRegistryButDontHavePermissions, IsNotLoggedIntoRegistry,
    hdenied, hanon, hunauth, hb]

theorem C6_service_unavailable_fixed_message_witness :
    (Contains "dial tcp 10.0.0.1:1234: connect: connection refused" "connect: connection refused"
        = true
      ∨ Contains "dial tcp 10.0.0.1:1234: connect: connection refused" "500 Internal Server Error"
        = true
      ∨ Contains "dial tcp 10.0.0.1:1234: connect: connection refused" "context canceled" = true)
    ∧ GetErrorMessage (fun tag => ("docker.io", tag))
        (some "dial tcp 10.0.0.1:1234: connect: connection refused") "myimg:latest"
      = some { E := "buildkit service is not available at the moment"
               Hint := "Please try again later." } :=
  ⟨Or.inl (by decide),
    C6_service_unavailable_fixed_message (fun tag => ("docker.io", tag))
      "dial tcp 10.0.0.1:1234: connect: connection refused" "myimg:latest"
      (Or.inl (by decide)) (by decide) (by decide) (by decide)⟩

/-- C7: `IsTransientError err` is true exactly when `err` is non-nil and its text meets the
rule table of the specification (`transientBySpec`), by case-sensitive containment; one half
of a paired rule alone is not enough, and a nil error is not transient. -/
theorem C7_transient_iff_rule_table (err : Option String) :
    (IsTransientError err = true ↔ ∃ e, err = some e ∧ transientBySpec e)
      ∧ IsTransientError none = false
      ∧ IsTransientError (some "context canceled") = false
      ∧ IsTransientError (some "Canceled") = false
      ∧ IsTransientError (some "failed commit on ref") = false
      ∧ IsTransientError (some "500 Internal Server Error") = false
      ∧ IsTransientError (some "failed to do request") = false
      ∧ IsTransientError (some "no such host") = false
      ∧ IsTransientError (some "rpc error: code = Canceled desc = context canceled") = true
      ∧ IsTransientError (some "rpc error: code = canceled desc = context canceled") = false
      ∧ IsTransientError (some "Transport Is Closing") = false := by
  refine ⟨?_, by decide, by decide, by decide, by decide, by decide, by decide, by decide,
    by decide, by decide, by decide⟩
  cases err with
  | none => simp [IsTransientError]
  | some e =>
    simp only [IsTransientError, transientBySpec, Option.some.injEq, exists_eq_left',
      ite_true_iff_or, Bool.or_eq_true, Bool.and_eq_true, or_assoc, Bool.false_eq_true, or_false]

/-! ## Submission task: lemmas -/

theorem indexChars_eq_none_iff (s : List Char) : indexChars s ['='] = none ↔ '=' ∉ s := by
  induction s with
  | nil => simp [indexChars, List.isPrefixOf]
  | cons c cs ih =>
    by_cases hc : '=' = c
    · subst hc
      simp [indexChars, List.isPrefixOf]
    · have hc' : ¬ c = '=' := fun h => hc h.symm
      simp [indexChars, List.isPrefixOf, hc, hc', ih]

theorem indexChars_eq_some (s : List Char) (m : Nat) (h : indexChars s ['='] = some m) :
    '=' ∉ s.take m ∧ s = s.take m ++ '=' :: s.drop (m + 1) := by
  induction s generalizing m with
  | nil => simp [indexChars, List.isPrefixOf] at h
  | cons c cs ih =>
    by_cases hc : '=' = c
    · subst hc
      simp [indexChars, List.isPrefixOf] at h
      subst h
      simp
    · have hc' : ¬ c = '=' := fun h => hc h.symm
      simp only [indexChars, List.isPrefixOf, beq_iff_eq, hc, Bool.and_true, if_false,
        Option.map_eq_some', Bool.false_eq_true] at h
      obtain ⟨k, hk, rfl⟩ := h
      obtain ⟨h1, h2⟩ := ih k hk
      refine ⟨?_, ?_⟩
      · simp only [List.take_succ_cons, List.mem_cons, not_or]
        exact ⟨hc, h1⟩
      · simp only [List.take_succ_cons, List.drop_succ_cons, List.cons_append]
        exact congrArg (c :: ·) h2

theorem SplitN_eq (v : String) :
    SplitN v "=" 2 =
      match indexChars v.data ['='] with
      | none => [v]
      | some m => [String.mk (v.data.take m), String.mk (v.data.drop (m + 1))] := by
  have h2 : ¬ ((2 : Int) = 0) := by decide
  have h3 : ¬ ((2 : Int) < 0) := by decide
  have h4 : (2 : Int).toNat - 1 = 1 := by decide
  have h5 : ("=" : String).data = ['='] := rfl
  have h6 : ¬ (['='] = ([] : List Char)) := by simp
  simp only [SplitN, h2, h3, h4, h5, h6, if_false, genSplitLoop]
  cases hidx : indexChars v.data ['='] with
  | none => simp
  | some m => simp

theorem buildVarList_cons_bad (v : String) (rest : List String) (acc : List Variable)
    (h : '=' ∉ v.data) :
    buildVarList (v :: rest) acc
      = .error (.errorf ("invalid variable value '" ++ v ++ "': must follow KEY=VALUE format")) := by
  have hidx := (indexChars_eq_none_iff v.data).mpr h
  simp [buildVarList, SplitN_eq, hidx]

theorem buildVarList_cons_good (v : String) (rest : List String) (acc : List Variable)
    (h : '=' ∈ v.data) :
    ∃ kv : Variable, v = kv.Name ++ "=" ++ kv.Value ∧ '=' ∉ kv.Name.data
      ∧ buildVarList (v :: rest) acc = buildVarList rest (acc ++ [kv]) := by
  cases hidx : indexChars v.data ['='] with
  | none => exact absurd h ((indexChars_eq_none_iff v.data).mp hidx)
  | some m =>
    obtain ⟨h1, h2⟩ := indexChars_eq_some v.data m hidx
    refine ⟨{ Name := String.mk (v.data.take m), Value := String.mk (v.data.drop (m + 1)) },
      ?_, h1, ?_⟩
    · apply String.ext
      simp only [String.data_append]
      simpa using h2
    · simp [buildVarList, SplitN_eq, hidx]

theorem buildVarList_error_iff (vars : List String) (acc : List Variable) :
    (∃ e, buildVarList vars acc = .error e) ↔ ∃ v ∈ vars, '=' ∉ v.data := by
  induction vars generalizing acc with
  | nil => simp [buildVarList]
  | cons v rest ih =>
    by_cases h : '=' ∈ v.data
    · obtain ⟨kv, _, _, hstep⟩ := buildVarList_cons_good v rest acc h
      rw [hstep, ih]
      constructor
      · rintro ⟨u, hu, hu2⟩
        exact ⟨u, List.mem_cons_of_mem _ hu, hu2⟩
      · rintro ⟨u, hu, hu2⟩
        rcases List.mem_cons.mp hu with rfl | hu
        · exact absurd h hu2
        · exact ⟨u, hu, hu2⟩
    · rw [buildVarList_cons_bad v rest acc h]
      exact ⟨fun _ => ⟨v, List.mem_cons_self _ _, h⟩, fun _ => ⟨_, rfl⟩⟩

theorem buildVarList_first_bad (pre : List String) (v : String) (post : List String)
    (acc : List Variable) (hpre : ∀ u ∈ pre, '=' ∈ u.data) (hv : '=' ∉ v.data) :
    buildVarList (pre ++ v :: post) acc
      = .error (.errorf ("invalid variable value '" ++ v ++ "': must follow KEY=VALUE format")) := by
  induction pre generalizing acc with
  | nil => exact buildVarList_cons_bad v post acc hv
  | cons u pre ih =>
    obtain ⟨kv, _, _, hstep⟩ :=
      buildVarList_cons_good u (pre ++ v :: post) acc (hpre u (List.mem_cons_self _ _))
    rw [List.cons_append, hstep]
    exact ih _ (fun w hw => hpre w (List.mem_cons_of_mem _ hw))

theorem buildVarList_all_good (vars : List String) (acc : List Variable)
    (h : ∀ v ∈ vars, '=' ∈ v.data) :
    ∃ varList : List Variable, buildVarList vars acc = .ok (acc ++ varList)
      ∧ List.Forall₂ (fun v kv => v = kv.Name ++ "=" ++ kv.Value ∧ '=' ∉ kv.Name.data)
          vars varList := by
  induction vars generalizing acc with
  | nil => exact ⟨[], by simp [buildVarList], List.Forall₂.nil⟩
  | cons v rest ih =>
    obtain ⟨kv, h1, h2, hstep⟩ := buildVarList_cons_good v rest acc (h v (List.mem_cons_self _ _))
    obtain ⟨vl, hvl, hall⟩ := ih (acc ++ [kv]) (fun w hw => h w (List.mem_cons_of_mem _ hw))
    refine ⟨kv :: vl, ?_, List.Forall₂.cons ⟨h1, h2⟩ hall⟩
    rw [hstep, hvl]
    simp

theorem deployStep_no_call (client : DeployClient) (opts : DeployOptions) (e : GoError)
    (hbad : buildVarList opts.Variables [] = .error e) (s s' : DeployState) (a : DeployAction)
    (hcalls : s.calls = []) (htask : ∀ c, s.task ≠ .inFlight c)
    (hstep : deployStep client opts s a = some s') :
    s'.calls = [] ∧ ∀ c, s'.task ≠ .inFlight c := by
  cases a with
  | interrupt =>
    simp only [deployStep, Option.some.injEq] at hstep
    subst hstep
    exact ⟨hcalls, htask⟩
  | taskStart =>
    simp only [deployStep, hbad] at hstep
    cases ht : s.task with
    | notStarted =>
      simp only [ht, Option.some.injEq] at hstep
      subst hstep
      exact ⟨hcalls, fun c => by simp⟩
    | inFlight c => simp [ht] at hstep
    | finished => simp [ht] at hstep
  | taskFinish =>
    cases ht : s.task with
    | notStarted => simp [deployStep, ht] at hstep
    | inFlight c => exact absurd ht (htask c)
    | finished => simp [deployStep, ht] at hstep
  | selectStop =>
    simp only [deployStep] at hstep
    split_ifs at hstep
    simp only [Option.some.injEq] at hstep
    subst hstep
    exact ⟨hcalls, htask⟩
  | selectExit =>
    simp only [deployStep] at hstep
    split_ifs at hstep
    cases hb : s.exitBuf with
    | none => simp [hb] at hstep
    | some v =>
      cases v with
      | none =>
        simp only [hb, Option.some.injEq] at hstep
        subst hstep
        exact ⟨hcalls, htask⟩
      | some err =>
        simp only [hb, Option.some.injEq] at hstep
        subst hstep
        exact ⟨hcalls, htask⟩

theorem deployRun_no_call (client : DeployClient) (opts : DeployOptions) (e : GoError)
    (hbad : buildVarList opts.Variables [] = .error e) (schedule : List DeployAction)
    (s s' : DeployState) (hcalls : s.calls = []) (htask : ∀ c, s.task ≠ .inFlight c)
    (hrun : deployRun client opts s schedule = some s') : s'.calls = [] := by
  induction schedule generalizing s with
  | nil =>
    simp only [deployRun, Option.some.injEq] at hrun
    subst hrun
    exact hcalls
  | cons a rest ih =>
    simp only [deployRun] at hrun
    cases hstep : deployStep client opts s a with
    | none => simp [hstep] at hrun
    | some s1 =>
      simp only [hstep] at hrun
      obtain ⟨h1, h2⟩ := deployStep_no_call client opts e hbad s s1 a hcalls htask hstep
      exact ih s1 h1 h2 hrun

theorem deployStep_ret_stable (client : DeployClient) (opts : DeployOptions)
    (s s' : DeployState) (a : DeployAction)
    (r : Option GitDeployResponse × Option GoError) (hret : s.ret = some r)
    (hstep : deployStep client opts s a = some s') : s'.ret = some r := by
  cases a with
  | interrupt =>
    simp only [deployStep, Option.some.injEq] at hstep
    subst hstep
    exact hret
  | taskStart =>
    simp only [deployStep] at hstep
    cases ht : s.task with
    | notStarted =>
      cases hb : buildVarList opts.Variables [] with
      | error e =>
        simp only [ht, hb, Option.some.injEq] at hstep
        subst hstep
        exact hret
      | ok varList =>
        simp only [ht, hb, Option.some.injEq] at hstep
        subst hstep
        exact hret
    | inFlight c => simp [ht] at hstep
    | finished => simp [ht] at hstep
  | taskFinish =>
    cases ht : s.task with
    | notStarted => simp [deployStep, ht] at hstep
    | inFlight c =>
      simp only [deployStep, ht, Option.some.injEq] at hstep
      subst hstep
      exact hret
    | finished => simp [deployStep, ht] at hstep
  | selectStop => simp [deployStep, hret] at hstep
  | selectExit => simp [deployStep, hret] at hstep

theorem deployRun_ret_stable (client : DeployClient) (opts : DeployOptions)
    (schedule : List DeployAction) (s s' : DeployState)
    (r : Option GitDeployResponse × Option GoError) (hret : s.ret = some r)
    (hrun : deployRun client opts s schedule = some s') : s'.ret = some r := by
  induction schedule generalizing s with
  | nil =>
    simp only [deployRun, Option.some.injEq] at hrun
    subst hrun
    exact hret
  | cons a rest ih =>
    simp only [deployRun] at hrun
    cases hstep : deployStep client opts s a with
    | none => simp [hstep] at hrun
    | some s1 =>
      simp only [hstep] at hrun
      exact ih s1 (deployStep_ret_stable client opts s s1 a r hret hstep) hrun

theorem deployStep_selectStop (client : DeployClient) (opts : DeployOptions)
    (s s' : DeployState) (hstep : deployStep client opts s .selectStop = some s') :
    s'.ret = some (none, some .ErrIntSig) ∧ s'.task = s.task ∧ s'.calls = s.calls
      ∧ s.stopBuf = true := by
  simp only [deployStep] at hstep
  split_ifs at hstep with h
  simp only [Option.some.injEq] at hstep
  subst hstep
  exact ⟨rfl, rfl, rfl, h.2⟩

theorem deployRun_selectStop (client : DeployClient) (opts : DeployOptions)
    (schedule : List DeployAction) (s s' : DeployState)
    (hrun : deployRun client opts s schedule = some s') (htaken : .selectStop ∈ schedule) :
    s'.ret = some (none, some .ErrIntSig) := by
  induction schedule generalizing s with
  | nil => simp at htaken
  | cons a rest ih =>
    simp only [deployRun] at hrun
    cases hstep : deployStep client opts s a with
    | none => simp [hstep] at hrun
    | some s1 =>
      simp only [hstep] at hrun
      by_cases ha : a = .selectStop
      · subst ha
        exact deployRun_ret_stable client opts rest s1 s' _
          (deployStep_selectStop client opts s s1 hstep).1 hrun
      · have hrest : DeployAction.selectStop ∈ rest := by
          rcases List.mem_cons.mp htaken with h | h
          · exact absurd h.symm ha
          · exact h
        exact ih s1 hrun hrest

/-! ## Submission task: claims -/

/-- C4: validation of `opts.Variables` in the submission goroutine fails if and only if some
entry contains no '='. When it fails, the error sent on `exit` is
"invalid variable value '<v>': must follow KEY=VALUE format" for the first such entry `v`, and
no run makes a `Deploy` call. When every entry contains '=', the goroutine issues `Deploy` once,
with one variable per entry, in order: the name before and the value after the first '='. -/
theorem C4_variable_validation (client : DeployClient) (opts : DeployOptions) :
    ((∃ e, buildVarList opts.Variables [] = .error e) ↔ ∃ v ∈ opts.Variables, '=' ∉ v.data)
      ∧ (∀ pre v post, opts.Variables = pre ++ v :: post → (∀ u ∈ pre, '=' ∈ u.data) →
          '=' ∉ v.data →
          deployStep client opts DeployState.init .taskStart
              = some { DeployState.init with
                  task := .finished
                  exitBuf := some (some (.errorf ("invalid variable value '" ++ v
                    ++ "': must follow KEY=VALUE format"))) }
            ∧ ∀ schedule s, deployRun client opts DeployState.init schedule = some s →
                s.calls = [])
      ∧ ((∀ v ∈ opts.Variables, '=' ∈ v.data) →
          ∃ varList : List Variable,
            List.Forall₂ (fun v kv => v = kv.Name ++ "=" ++ kv.Value ∧ '=' ∉ kv.Name.data)
              opts.Variables varList
            ∧ deployStep client opts DeployState.init .taskStart
              = some { DeployState.init with
                  task := .inFlight { name := opts.Name, repository := opts.Repository,
                                      branch := opts.Branch, file := opts.File,
                                      varList := varList }
                  calls := [{ name := opts.Name, repository := opts.Repository,
                              branch := opts.Branch, file := opts.File,
                              varList := varList }] }) := by
  refine ⟨buildVarList_error_iff opts.Variables [], ?_, ?_⟩
  · intro pre v post hvars hpre hv
    have hbad := buildVarList_first_bad pre v post [] hpre hv
    rw [← hvars] at hbad
    refine ⟨by simp [deployStep, DeployState.init, hbad], ?_⟩
    intro schedule s hrun
    exact deployRun_no_call client opts _ hbad schedule DeployState.init s rfl
      (fun c => by simp [DeployState.init]) hrun
  · intro hall
    obtain ⟨varList, hok, hforall⟩ := buildVarList_all_good opts.Variables [] hall
    refine ⟨varList, hforall, ?_⟩
    simp only [List.nil_append] at hok
    simp [deployStep, DeployState.init, hok]

theorem C4_variable_validation_witness :
    (sampleOptions ["A=1", "B", "C"]).Variables = ["A=1"] ++ "B" :: ["C"]
      ∧ (∀ u ∈ ["A=1"], '=' ∈ u.data) ∧ '=' ∉ ("B" : String).data
      ∧ deployStep sampleClient (sampleOptions ["A=1", "B", "C"]) DeployState.init .taskStart
          = some { DeployState.init with
              task := .finished
              exitBuf := some (some (.errorf ("invalid variable value '" ++ "B"
                ++ "': must follow KEY=VALUE format"))) } :=
  ⟨rfl, by decide, by decide,
    ((C4_variable_validation sampleClient (sampleOptions ["A=1", "B", "C"])).2.1
      ["A=1"] "B" ["C"] rfl (by decide) (by decide)).1⟩

/-- C8: in every run of `deployPipeline` in which the `select` takes the interrupt case, the
function returns `(nil, ErrIntSig)`, never a response; taking that case needs a delivered
signal and leaves the submission goroutine and its `Deploy` call where they are. -/
theorem C8_interrupt_returns_ErrIntSig (client : DeployClient) (opts : DeployOptions)
    (schedule : List DeployAction) (s : DeployState)
    (hrun : deployRun client opts DeployState.init schedule = some s)
    (htaken : .selectStop ∈ schedule) :
    s.ret = some (none, some .ErrIntSig)
      ∧ (∀ s0 s1, deployStep client opts s0 .selectStop = some s1 →
          s1.ret = some (none, some .ErrIntSig) ∧ s1.task = s0.task ∧ s1.calls = s0.calls
            ∧ s0.stopBuf = true) :=
  ⟨deployRun_selectStop client opts schedule DeployState.init s hrun htaken,
    fun s0 s1 h => deployStep_selectStop client opts s0 s1 h⟩

theorem C8_interrupt_returns_ErrIntSig_witness :
    deployRun sampleClient (sampleOptions ["A=1"]) DeployState.init
        [.taskStart, .interrupt, .selectStop] = some sampleInterruptedState
      ∧ DeployAction.selectStop ∈ [DeployAction.taskStart, .interrupt, .selectStop]
      ∧ sampleInterruptedState.ret = some (none, some .ErrIntSig) :=
  ⟨by decide, by decide,
    (C8_interrupt_returns_ErrIntSig sampleClient (sampleOptions ["A=1"])
      [.taskStart, .interrupt, .selectStop] sampleInterruptedState (by decide) (by decide)).1⟩

/-! ## Wait coordinator -/

theorem waitStep_inv (poller : WaitOutcome) (s s' : WaitState) (a : WaitAction)
    (hinv : WaitInv poller s) (hstep : waitStep poller s a = some s') : WaitInv poller s' := by
  obtain ⟨i1, i2, i3, i4⟩ := hinv
  cases a with
  | interrupt =>
    simp only [waitStep] at hstep
    split_ifs at hstep <;>
    · simp only [Option.some.injEq] at hstep
      subst hstep
      exact ⟨by simp, i2, i3, by simp⟩
  | streamerFinish =>
    simp only [waitStep] at hstep
    split_ifs at hstep
    simp only [Option.some.injEq] at hstep
    subst hstep
    exact ⟨i1, i2, i3, i4⟩
  | pollerFinish =>
    simp only [waitStep] at hstep
    split_ifs at hstep with h
    rw [not_or] at h
    cases hp : poller with
    | panicked msg =>
      rw [hp] at i3 i4
      simp only [hp, Option.some.injEq] at hstep
      subst hstep
      exact ⟨i1, i2, i3, i4⟩
    | polling => simp [hp] at hstep
    | returned err =>
      rw [hp] at i4
      simp only [hp, Option.some.injEq] at hstep
      subst hstep
      exact ⟨i1, by simp, fun _ => ⟨err, rfl, Or.inl rfl⟩, i4⟩
  | helperCloseStop =>
    simp only [waitStep] at hstep
    split_ifs at hstep with h
    simp only [Option.some.injEq] at hstep
    subst hstep
    refine ⟨i1, ?_, i3, ?_⟩
    · intro hpd
      simp only at hpd
      rw [h.2.2.1] at hpd
      exact absurd hpd (by simp)
    · intro r hr h0
      rcases i4 r hr h0 with h1 | h1
      · exact Or.inl h1
      · exact Or.inr ⟨h1.1, rfl⟩
  | helperCloseExit =>
    simp only [waitStep] at hstep
    split_ifs at hstep with h
    simp only [Option.some.injEq] at hstep
    subst hstep
    refine ⟨i1, ?_, i3, i4⟩
    intro hpd
    have := (i2 hpd).2.2.2
    rw [this] at h
    exact absurd h.2 (by simp)
  | selectStop =>
    simp only [waitStep] at hstep
    split_ifs at hstep with h
    simp only [Option.some.injEq] at hstep
    subst hstep
    refine ⟨fun _ => rfl, i2, ?_, ?_⟩
    · intro hpd
      obtain ⟨r, hr1, hr2⟩ := i3 hpd
      refine ⟨r, hr1, Or.inl ?_⟩
      rcases hr2 with h1 | h1
      · exact h1
      · rw [h.2.1] at h1
        exact absurd h1 (by simp)
    · intro r hr h0
      simp only [Option.some.injEq] at hr
      subst hr
      right
      refine ⟨rfl, ?_⟩
      rcases h.2.2 with hb | hc
      · rw [i1 h0] at hb
        exact absurd hb (by simp)
      · exact hc
  | selectExit =>
    simp only [waitStep] at hstep
    have hpd_of : s.exitBuf ≠ none ∨ s.exitClosed = true → s.pollerDone = true := by
      intro hh
      by_contra hne
      have hpd : s.pollerDone = false := by simpa using hne
      obtain ⟨e1, _, e3, _⟩ := i2 hpd
      rcases hh with hh | hh
      · exact hh e1
      · rw [e3] at hh
        exact absurd hh (by simp)
    cases hb : s.exitBuf with
    | some err =>
      simp only [hb] at hstep
      split_ifs at hstep with h
      simp only [Option.some.injEq] at hstep
      subst hstep
      have hpd := hpd_of (Or.inl (by simp [hb]))
      obtain ⟨r, hr1, hr2⟩ := i3 hpd
      have hre : r = err := by
        rcases hr2 with h1 | h1
        · rw [hb] at h1
          exact (Option.some.inj h1).symm
        · rw [h.2] at h1
          exact absurd h1 (by simp)
      subst hre
      refine ⟨i1, ?_, fun _ => ⟨r, hr1, Or.inr rfl⟩, ?_⟩
      · intro hpd'
        simp only at hpd'
        rw [hpd] at hpd'
        exact absurd hpd' (by simp)
      · intro r' hr' _
        simp only [Option.some.injEq] at hr'
        subst hr'
        exact Or.inl hr1
    | none =>
      simp only [hb] at hstep
      split_ifs at hstep with h hc
      have hpd := hpd_of (Or.inr hc)
      obtain ⟨r, hr1, hr2⟩ := i3 hpd
      rcases hr2 with h1 | h1
      · rw [hb] at h1
        exact absurd h1 (by simp)
      · rw [h.2] at h1
        exact absurd h1 (by simp)

theorem waitRun_inv (poller : WaitOutcome) (schedule : List WaitAction) (s s' : WaitState)
    (hinv : WaitInv poller s) (hrun : waitRun poller s schedule = some s') :
    WaitInv poller s' := by
  induction schedule generalizing s with
  | nil =>
    simp only [waitRun, Option.some.injEq] at hrun
    subst hrun
    exact hinv
  | cons a rest ih =>
    simp only [waitRun] at hrun
    cases hstep : waitStep poller s a with
    | none => simp [hstep] at hrun
    | some s1 =>
      simp only [hstep] at hrun
      exact ih s1 (waitStep_inv poller s s1 a hinv hstep) hrun

theorem waitRun_result_without_interrupt (poller : WaitOutcome) (schedule : List WaitAction)
    (s : WaitState) (r : Option GoError)
    (hrun : waitRun poller WaitState.init schedule = some s)
    (hnone : s.interrupts = 0) (hret : s.ret = some r) :
    poller = .returned r ∨ (r = some .ErrIntSig ∧ s.stopClosed = true) := by
  have h0 : WaitInv poller WaitState.init := by
    refine ⟨fun _ => rfl, fun _ => ⟨rfl, rfl, rfl, rfl⟩, ?_, ?_⟩
    · intro h
      simp [WaitState.init] at h
    · intro r h
      simp [WaitState.init] at h
  exact (waitRun_inv poller schedule WaitState.init s h0 hrun).2.2.2 r hret hnone

/-- C10 (the code at the failing run): no interrupt is delivered, the streamer and the poller
finish and the helper goroutine closes `stop` before the `select` is evaluated; `case <-stop`
can then proceed and `waitUntilRunning` returns `ErrIntSig`, both when the poller reported
success (`nil`) and when it reported an error. -/
theorem C10_closed_stop_returns_ErrIntSig :
    pollerOutcome none (waitForResourcesToBeRunning specStatusTable nanosString "movies"
        (300 * Second) [.tick (.ok [("svc-a", "running")])]) = .returned none
      ∧ waitUntilRunning specStatusTable nanosString "movies" (300 * Second) none
          [.tick (.ok [("svc-a", "running")])]
          [.streamerFinish, .pollerFinish, .helperCloseStop, .selectStop]
        = some { streamerDone := true, pollerDone := true, helper := .closedStop,
                 stopBuf := false, stopClosed := true, exitBuf := some none,
                 exitClosed := false, cancelled := true, interrupts := 0, panicked := false,
                 ret := some (some .ErrIntSig) }
      ∧ waitUntilRunning specStatusTable nanosString "movies" (300 * Second)
          (some (.errorf "pipeline failed")) []
          [.streamerFinish, .pollerFinish, .helperCloseStop, .helperCloseExit, .selectStop]
        = some { streamerDone := true, pollerDone := true, helper := .closedExit,
                 stopBuf := false, stopClosed := true,
                 exitBuf := some (some (.errorf "pipeline failed")),
                 exitClosed := true, cancelled := true, interrupts := 0, panicked := false,
                 ret := some (some .ErrIntSig) }
      ∧ (waitUntilRunning specStatusTable nanosString "movies" (300 * Second) none
          [.tick (.ok [("svc-a", "running")])]
          [.streamerFinish, .pollerFinish, .helperCloseStop, .selectExit]).map (·.ret)
        = some (some none) := by
  decide

end Okteto
